import Mathlib

/-!
Verification development for the patient risk-assessment scripts
(src/assessment.ts, authoritative, and the variant src/unnamed/part_001).

The embedding models JavaScript numbers as an inductive type with NaN,
the two infinities and exact rationals; string parsing (parseInt and
parseFloat) is modelled over character lists following the JavaScript
grammar; the paginated fetch loop and the collection orchestrator are
modelled with an explicit oracle for network outcomes and fuel for the
while loop.
-/

namespace Assessment

/-- JavaScript number values as observed by this program: NaN, the two
infinities, or a finite value (modelled as an exact rational).  Overflow
of huge literals to infinity is not modelled: a huge finite value and
infinity are indistinguishable by every comparison this program makes. -/
inductive JSNum : Type
  | nan
  | inf
  | ninf
  | fin (q : ℚ)
deriving DecidableEq

/-- NaN test (the isNaN disjunct of isInvalidNumber). -/
def JSNum.isNaN : JSNum → Bool
  | .nan => true
  | _ => false

/-- JavaScript comparison a <= b: false whenever either side is NaN. -/
def JSNum.le : JSNum → JSNum → Bool
  | .nan, _ => false
  | _, .nan => false
  | .ninf, _ => true
  | _, .inf => true
  | .inf, _ => false
  | .fin _, .ninf => false
  | .fin a, .fin b => a ≤ b

/-- JavaScript comparison a < b: false whenever either side is NaN. -/
def JSNum.lt : JSNum → JSNum → Bool
  | .nan, _ => false
  | _, .nan => false
  | .inf, _ => false
  | .ninf, .ninf => false
  | .ninf, _ => true
  | .fin _, .inf => true
  | .fin _, .ninf => false
  | .fin a, .fin b => a < b

/-- JavaScript comparison a >= b. -/
def JSNum.ge (a b : JSNum) : Bool := JSNum.le b a

/-- JavaScript comparison a > b. -/
def JSNum.gt (a b : JSNum) : Bool := JSNum.lt b a

/-- Whitespace skipped by JavaScript parseInt, parseFloat and trim. -/
def isJsWs (c : Char) : Bool :=
  c = ' ' || c = '\t' || c = '\n' || c = '\r' || c = '\x0b' || c = '\x0c'

/-- Decimal digit test. -/
def isDigit (c : Char) : Bool := '0' ≤ c && c ≤ '9'

/-- Value of a decimal digit. -/
def digitVal (c : Char) : Nat := c.toNat - '0'.toNat

/-- Hexadecimal digit test. -/
def isHexDigit (c : Char) : Bool :=
  isDigit c || ('a' ≤ c && c ≤ 'f') || ('A' ≤ c && c ≤ 'F')

/-- Value of a hexadecimal digit. -/
def hexVal (c : Char) : Nat :=
  if isDigit c then digitVal c
  else if 'a' ≤ c && c ≤ 'f' then c.toNat - 'a'.toNat + 10
  else c.toNat - 'A'.toNat + 10

/-- Accumulate a digit list into a natural number in the given base. -/
def natOfDigits (base : Nat) (f : Char → Nat) (ds : List Char) : Nat :=
  ds.foldl (fun acc c => acc * base + f c) 0

/-- Strip one optional leading sign, returning the sign as plus or minus one. -/
def splitSign : List Char → Int × List Char
  | '-' :: rest => (-1, rest)
  | '+' :: rest => (1, rest)
  | cs => (1, cs)

/-- JavaScript parseInt with the radix argument omitted: skip whitespace,
read an optional sign, treat a 0x or 0X prefix as hexadecimal, otherwise
read the longest prefix of decimal digits; NaN when no digit is found. -/
def parseIntChars (cs0 : List Char) : JSNum :=
  let sc := splitSign (cs0.dropWhile isJsWs)
  match sc.2 with
  | '0' :: x :: rest =>
    if x = 'x' || x = 'X' then
      let ds := rest.takeWhile isHexDigit
      if ds.isEmpty then .nan
      else .fin ((sc.1 * (natOfDigits 16 hexVal ds : Int) : Int) : ℚ)
    else
      .fin ((sc.1 * (natOfDigits 10 digitVal (sc.2.takeWhile isDigit) : Int) : Int) : ℚ)
  | _ =>
    let ds := sc.2.takeWhile isDigit
    if ds.isEmpty then .nan
    else .fin ((sc.1 * (natOfDigits 10 digitVal ds : Int) : Int) : ℚ)

/-- Exponent part of a decimal literal: e or E, optional sign, digits;
zero when the exponent part is absent or malformed (JavaScript backtracks
to the longest valid prefix, so a malformed exponent is simply ignored). -/
def parseExp : List Char → Int
  | e :: rest =>
    if e = 'e' || e = 'E' then
      let sc := splitSign rest
      let ds := sc.2.takeWhile isDigit
      if ds.isEmpty then 0 else sc.1 * (natOfDigits 10 digitVal ds : Int)
    else 0
  | [] => 0

/-- JavaScript parseFloat: skip whitespace, optional sign, then the longest
prefix that is an Infinity literal or a decimal literal (integer digits,
optional fraction, optional exponent); NaN when no digit is found.  Finite
values are kept as exact rationals, assembled as one integer quotient:
sign * (all mantissa digits) * 10 ^ exponent / 10 ^ (fraction length).
Every comparison made by this program against its decimal threshold
constants agrees with the double-precision evaluation on these values. -/
def parseFloatChars (cs0 : List Char) : JSNum :=
  let sc := splitSign (cs0.dropWhile isJsWs)
  if ['I', 'n', 'f', 'i', 'n', 'i', 't', 'y'].isPrefixOf sc.2 then
    if sc.1 = 1 then .inf else .ninf
  else
    let ip := sc.2.takeWhile isDigit
    let rest1 := sc.2.dropWhile isDigit
    let fp := match rest1 with
      | '.' :: r => r.takeWhile isDigit
      | _ => []
    let rest2 := match rest1 with
      | '.' :: r => r.dropWhile isDigit
      | _ => rest1
    if ip.isEmpty && fp.isEmpty then .nan
    else
      let e := parseExp rest2
      let mant : Int :=
        sc.1 * (natOfDigits 10 digitVal ip * 10 ^ fp.length + natOfDigits 10 digitVal fp : Nat)
      if 0 ≤ e then
        .fin (Rat.divInt (mant * (10 : Int) ^ e.toNat) ((10 : Int) ^ fp.length))
      else
        .fin (Rat.divInt mant ((10 : Int) ^ fp.length * (10 : Int) ^ (-e).toNat))

/-- parseInt on a string. -/
def parseInt (s : String) : JSNum := parseIntChars s.data

/-- parseFloat on a string. -/
def parseFloat (s : String) : JSNum := parseFloatChars s.data

/-- JavaScript String.prototype.trim. -/
def jsTrim (s : String) : String :=
  ⟨((s.data.dropWhile isJsWs).reverse.dropWhile isJsWs).reverse⟩

/-- Split a character list at every slash, as String.prototype.split does
for a one-character separator. -/
def splitSlashChars : List Char → List (List Char)
  | [] => [[]]
  | c :: rest =>
    if c = '/' then [] :: splitSlashChars rest
    else
      match splitSlashChars rest with
      | h :: t => (c :: h) :: t
      | [] => [[c]]

/-- bp.split of the source: split the string at every slash. -/
def jsSplitSlash (s : String) : List String :=
  (splitSlashChars s.data).map fun cs => ⟨cs⟩

/-- bp.includes of the source: does the string contain a slash. -/
def jsIncludesSlash (s : String) : Bool := s.data.contains '/'

/-- Patient record from the source.  The three scoring inputs are optional
strings, exactly as the Patient type of src/assessment.ts declares them;
the write-only riskScore, isFever and hasDataQualityIssue fields the
orchestrator stores back onto the record are never read and are omitted. -/
structure Patient where
  patient_id : String
  blood_pressure : Option String := none
  temperature : Option String := none
  age : Option String := none
deriving DecidableEq

/-- Result of calculateRiskScore. -/
structure ScoreResult where
  score : Nat
  isFever : Bool
  hasDataQualityIssue : Bool
deriving DecidableEq

/-- isInvalidNumber from the source: value === null, undefined, the empty
string, or NaN.  Every call site passes a parseInt or parseFloat result,
i.e. a number, so the first three disjuncts cannot fire and only the isNaN
test remains. -/
def isInvalidNumber (value : JSNum) : Bool := value.isNaN

/-- Blood-pressure block of calculateRiskScore in src/assessment.ts:
returns the sub-score together with the data-quality flag this block
raises.  none models an absent field (the typeof check fails). -/
def bpScore (bp : Option String) : Nat × Bool :=
  match bp with
  | some s =>
    if jsIncludesSlash s then
      match jsSplitSlash s with
      | systolicStr :: diastolicStr :: _ =>
        let systolic := parseInt (jsTrim systolicStr)
        let diastolic := parseInt (jsTrim diastolicStr)
        if isInvalidNumber systolic || isInvalidNumber diastolic then (0, true)
        else if systolic.ge (.fin 140) || diastolic.ge (.fin 90) then (3, false)
        else if (systolic.ge (.fin 130) && systolic.le (.fin 139)) ||
            (diastolic.ge (.fin 80) && diastolic.le (.fin 89)) then (2, false)
        else if systolic.ge (.fin 120) && systolic.le (.fin 129) &&
            diastolic.lt (.fin 80) then (1, false)
        else if systolic.lt (.fin 120) && diastolic.lt (.fin 80) then (0, false)
        else (0, false)
      | _ => (0, true)
    else (0, true)
  | none => (0, true)

/-- Temperature block of calculateRiskScore: returns the sub-score, the
fever flag and the data-quality flag this block raises.  The source reads
parseFloat of the field with the empty string as nullish fallback. -/
def tempScore (temperature : Option String) : Nat × Bool × Bool :=
  let temp := parseFloat (temperature.getD "")
  if isInvalidNumber temp then (0, false, true)
  else if temp.le (.fin (Rat.divInt 995 10)) then (0, false, false)
  else if temp.ge (.fin (Rat.divInt 996 10)) && temp.le (.fin (Rat.divInt 1009 10)) then (1, true, false)
  else if temp.ge (.fin 101) then (2, true, false)
  else (0, false, false)

/-- Age block of calculateRiskScore: returns the sub-score and the
data-quality flag this block raises. -/
def ageScore (ageField : Option String) : Nat × Bool :=
  let age := parseInt (ageField.getD "")
  if isInvalidNumber age then (0, true)
  else if age.lt (.fin 40) then (0, false)
  else if age.ge (.fin 40) && age.le (.fin 65) then (1, false)
  else if age.gt (.fin 65) then (2, false)
  else (0, false)

/-- calculateRiskScore from src/assessment.ts: the total score is the sum
of the three block sub-scores, the fever flag comes from the temperature
block, and the data-quality flag is raised by any of the three blocks. -/
def calculateRiskScore (patient : Patient) : ScoreResult :=
  let bp := bpScore patient.blood_pressure
  let tp := tempScore patient.temperature
  let ag := ageScore patient.age
  { score := bp.1 + tp.1 + ag.1
    isFever := tp.2.1
    hasDataQualityIssue := bp.2 || tp.2.2 || ag.2 }

/-- Blood-pressure block of calculateRiskScore in src/unnamed/part_001:
the threshold chain is checked mildest rule first, and the chain has no
final else, so a pair matching no rule keeps the initial sub-score 0. -/
def variantBpScore (bp : Option String) : Nat × Bool :=
  match bp with
  | some s =>
    if jsIncludesSlash s then
      match jsSplitSlash s with
      | systolicStr :: diastolicStr :: _ =>
        let systolic := parseInt (jsTrim systolicStr)
        let diastolic := parseInt (jsTrim diastolicStr)
        if isInvalidNumber systolic || isInvalidNumber diastolic then (0, true)
        else if systolic.lt (.fin 120) && diastolic.lt (.fin 80) then (0, false)
        else if systolic.ge (.fin 120) && systolic.le (.fin 129) &&
            diastolic.lt (.fin 80) then (1, false)
        else if (systolic.ge (.fin 130) && systolic.le (.fin 139)) ||
            (diastolic.ge (.fin 80) && diastolic.le (.fin 89)) then (2, false)
        else if systolic.ge (.fin 140) || diastolic.ge (.fin 90) then (3, false)
        else (0, false)
      | _ => (0, true)
    else (0, true)
  | none => (0, true)

/-- calculateRiskScore from src/unnamed/part_001.  Its temperature block
reads parseFloat of the field directly, with no nullish fallback: an
absent field gives parseFloat of undefined, which is NaN, exactly as the
empty-string fallback does, so the temperature and age blocks coincide
with those of src/assessment.ts and are shared. -/
def variantCalculateRiskScore (patient : Patient) : ScoreResult :=
  let bp := variantBpScore patient.blood_pressure
  let tp := tempScore patient.temperature
  let ag := ageScore patient.age
  { score := bp.1 + tp.1 + ag.1
    isFever := tp.2.1
    hasDataQualityIssue := bp.2 || tp.2.2 || ag.2 }

/-- Modelled from the spec: the ordered blood-pressure threshold rules of
section 4.1, severe rule checked first, stated directly on the parsed
systolic and diastolic values. -/
def specBpSubScore (systolic diastolic : ℚ) : Nat :=
  if 140 ≤ systolic ∨ 90 ≤ diastolic then 3
  else if (130 ≤ systolic ∧ systolic ≤ 139) ∨ (80 ≤ diastolic ∧ diastolic ≤ 89) then 2
  else if 120 ≤ systolic ∧ systolic ≤ 129 ∧ diastolic < 80 then 1
  else 0

/-- Presence and type of the hasNext field inside a pagination object, as
seen by the typeof check of the orchestrator: the field can be missing,
hold a boolean, or hold a value of any other runtime type. -/
inductive JBoolField : Type
  | missing
  | bool (b : Bool)
  | nonBool
deriving DecidableEq

/-- Pagination metadata of a page response. -/
structure Pagination where
  total : Option Int := none
  hasNext : JBoolField := .missing
deriving DecidableEq

/-- Body of a successful response, i.e. res.data: an optional records
array under the data key and an optional pagination object. -/
structure ApiData where
  data : Option (List Patient) := none
  pagination : Option Pagination := none
deriving DecidableEq

/-- Outcome of one network attempt: either axios resolves, carrying an
optional body, or it rejects, carrying the optional HTTP status of
error.response (none models a network error with no response). -/
inductive AttemptResult : Type
  | ok (res : Option ApiData)
  | err (status : Option Nat)
deriving DecidableEq

/-- Value returned by fetchPatientsPage: the defensively extracted
records and the pagination object (none models null). -/
structure PageResult where
  patients : List Patient
  pagination : Option Pagination
deriving DecidableEq

/-- The intermittent status codes the fetcher retries on. -/
def transientStatuses : List Nat := [429, 500, 502, 503]

/-- Does an attempt outcome trigger the retry branch: a rejection whose
status is one of the transient codes. -/
def isTransientErr : AttemptResult → Bool
  | .err (some status) => transientStatuses.contains status
  | _ => false

/-- The while loop of fetchPatientsPage.  The oracle gives the outcome of
the attempt made with the given value of the retries counter; fuel is the
number of loop iterations still allowed, maxRetries minus retries.  The
second component collects the backoff delays slept in order, each
baseDelay * 2 ^ retries; it is the only observable effect of retrying.
Exiting the while loop, by the retries cap or by the break of the
non-transient branch, falls through to the final empty return. -/
def fetchLoop (oracle : Nat → AttemptResult) : Nat → Nat → List Nat → PageResult × List Nat
  | 0, _, delays => (⟨[], none⟩, delays.reverse)
  | fuel + 1, retries, delays =>
    match oracle retries with
    | .ok res => (⟨(res.bind ApiData.data).getD [], res.bind ApiData.pagination⟩, delays.reverse)
    | .err status =>
      match status with
      | some s =>
        if transientStatuses.contains s then
          fetchLoop oracle fuel (retries + 1) (1000 * 2 ^ retries :: delays)
        else (⟨[], none⟩, delays.reverse)
      | none => (⟨[], none⟩, delays.reverse)

/-- fetchPatientsPage from src/assessment.ts, with maxRetries 10 and
baseDelay 1000.  The page and limit arguments only shape the URL and are
absorbed into the oracle. -/
def fetchPatientsPage (oracle : Nat → AttemptResult) : PageResult × List Nat :=
  fetchLoop oracle 10 0 []

/-- Accumulated state of the while loop of fetchAllPatients. -/
structure OrchState where
  allPatients : List Patient
  page : Nat
  hasNext : Bool
  failedPages : List Nat
  expectedTotal : Option Int
  highRiskPatientIds : List String
  feverPatientIds : List String
  dataQualityIssueIds : List String
deriving DecidableEq

/-- Initial orchestrator state: page 1, hasNext true, everything empty. -/
def initState : OrchState :=
  ⟨[], 1, true, [], none, [], [], []⟩

/-- The per-patient routing loop shared verbatim by the main loop and the
retry pass: score each record and push its id onto the high-risk list when
the score is at least 4, onto the fever list when the fever flag is set,
and onto the data-quality list when the quality flag is set. -/
def routePatients : List Patient → List String → List String → List String →
    List String × List String × List String
  | [], hi, fev, dq => (hi, fev, dq)
  | p :: rest, hi, fev, dq =>
    let r := calculateRiskScore p
    routePatients rest
      (if 4 ≤ r.score then hi ++ [p.patient_id] else hi)
      (if r.isFever then fev ++ [p.patient_id] else fev)
      (if r.hasDataQualityIssue then dq ++ [p.patient_id] else dq)

/-- Fold one page of records into the orchestrator state: route every id
into the three category lists and append the records to allPatients.  This
is the block the source repeats verbatim in the main loop and in the
retry pass. -/
def foldInPage (patients : List Patient) (s : OrchState) : OrchState :=
  let routed := routePatients patients s.highRiskPatientIds s.feverPatientIds s.dataQualityIssueIds
  { s with
    highRiskPatientIds := routed.1
    feverPatientIds := routed.2.1
    dataQualityIssueIds := routed.2.2
    allPatients := s.allPatients ++ patients }

/-- The ternary the orchestrator uses to refresh its loop flag: the
pagination object must be present and its hasNext field must be an actual
boolean, otherwise the flag becomes false. -/
def paginationHasNext : Option Pagination → Bool
  | some pg =>
    match pg.hasNext with
    | .bool b => b
    | _ => false
  | none => false

/-- One iteration of the while loop of fetchAllPatients, given the page
result the fetch produced for the current page: refresh expectedTotal when
pagination reports a truthy total; on an empty page record the page as
pending retry and advance the counter, leaving everything else (the loop
flag included) unchanged; on a non-empty page route and append the
records, refresh the loop flag from pagination, and advance the counter. -/
def stepMain (fetchM : Nat → PageResult) (s : OrchState) : OrchState :=
  let r := fetchM s.page
  let s1 := { s with
    expectedTotal :=
      match r.pagination with
      | some pg =>
        match pg.total with
        | some t => if t = 0 then s.expectedTotal else some t
        | none => s.expectedTotal
      | none => s.expectedTotal }
  if r.patients.isEmpty then
    { s1 with failedPages := s1.failedPages ++ [s1.page], page := s1.page + 1 }
  else
    { foldInPage r.patients s1 with
      hasNext := paginationHasNext r.pagination
      page := s1.page + 1 }

/-- The while loop of fetchAllPatients, driven by fuel: none models a run
whose fuel ran out while the loop still wanted to continue. -/
def mainLoop (fetchM : Nat → PageResult) : Nat → OrchState → Option OrchState
  | 0, s => if s.hasNext then none else some s
  | fuel + 1, s => if s.hasNext then mainLoop fetchM fuel (stepMain fetchM s) else some s

/-- The retry pass over the pages recorded as pending retry, in order.
Returns the final state, the list of pages it fetched (in order, one fetch
per recorded page), and the list of pages that were still empty and were
dropped with a warning.  A recovered page is folded in exactly as in the
main loop; the loop flag is never consulted or changed. -/
def retryPass (fetchR : Nat → PageResult) :
    List Nat → OrchState → OrchState × List Nat × List Nat
  | [], s => (s, [], [])
  | p :: rest, s =>
    let r := fetchR p
    if r.patients.isEmpty then
      let out := retryPass fetchR rest s
      (out.1, p :: out.2.1, p :: out.2.2)
    else
      let out := retryPass fetchR rest (foldInPage r.patients s)
      (out.1, p :: out.2.1, out.2.2)

/-- The three deduplicated id arrays handed to submitAssessment, under the
fixed payload keys. -/
structure Submission where
  high_risk_patients : List String
  fever_patients : List String
  data_quality_issues : List String
deriving DecidableEq

/-- Spread of a JavaScript Set built from an array: keep the first
occurrence of every element, in encounter order. -/
def setDedupAux (seen : List String) : List String → List String
  | [] => []
  | x :: xs => if x ∈ seen then setDedupAux seen xs else x :: setDedupAux (x :: seen) xs

/-- Spread of new Set(ids), as the source applies to each category list. -/
def setDedup (ids : List String) : List String := setDedupAux [] ids

/-- fetchAllPatients from src/assessment.ts: run the while loop from the
initial state, run the retry pass over the recorded pages, then submit the
three deduplicated category sets.  The main-loop and retry-pass fetches
are abstracted as two functions from page number to page result, matching
the two call sites of fetchPatientsPage; none models a run whose while
loop outlived the fuel. -/
def fetchAllPatients (fetchM fetchR : Nat → PageResult) (fuel : Nat) : Option Submission :=
  match mainLoop fetchM fuel initState with
  | none => none
  | some s =>
    let s2 := (retryPass fetchR s.failedPages s).1
    some
      ⟨setDedup s2.highRiskPatientIds,
        setDedup s2.feverPatientIds,
        setDedup s2.dataQualityIssueIds⟩

/-- Invariant of the main loop: the pending-retry pages are strictly
increasing and all lie below the current page counter (each loop iteration
pushes at most the current page and then advances the counter). -/
def pagesOrdered (s : OrchState) : Prop :=
  s.failedPages.Pairwise (· < ·) ∧ ∀ x ∈ s.failedPages, x < s.page

/-- Concrete service for witness runs: page 1 is momentarily empty while
advertising three expected records and more pages, page 2 delivers one
record and reports hasNext false, every other page is empty with no
pagination. -/
def demoFetch : Nat → PageResult
  | 1 => ⟨[], some ⟨some 3, .bool true⟩⟩
  | 2 => ⟨[⟨"a", none, none, none⟩], some ⟨none, .bool false⟩⟩
  | _ => ⟨[], none⟩

/-- State the main loop reaches on demoFetch after three iterations. -/
def demoFinal : OrchState :=
  ⟨[⟨"a", none, none, none⟩], 3, false, [1], some 3, [], [], ["a"]⟩

/-- Concrete service for witness runs where the same record id appears on
two different pages. -/
def dupFetch : Nat → PageResult
  | 1 => ⟨[⟨"p1", none, none, none⟩], some ⟨none, .bool true⟩⟩
  | 2 => ⟨[⟨"p1", none, none, none⟩], some ⟨none, .bool false⟩⟩
  | _ => ⟨[], none⟩

theorem fin_le_fin (a b : ℚ) : (JSNum.fin a).le (.fin b) = decide (a ≤ b) := rfl

theorem fin_lt_fin (a b : ℚ) : (JSNum.fin a).lt (.fin b) = decide (a < b) := rfl

theorem fin_ge_fin (a b : ℚ) : (JSNum.fin a).ge (.fin b) = decide (b ≤ a) := rfl

theorem fin_gt_fin (a b : ℚ) : (JSNum.fin a).gt (.fin b) = decide (b < a) := rfl

theorem isInvalidNumber_fin (a : ℚ) : isInvalidNumber (.fin a) = false := rfl

theorem isInvalidNumber_nan : isInvalidNumber .nan = true := rfl

/-- C1: for every blood-pressure string that parses to finite systolic and
diastolic integers, the sub-score follows the ordered threshold rules with
the severe rule checked first (at least 140 systolic or 90 diastolic gives
3, then the 130-139 or 80-89 band gives 2, then 120-129 with diastolic
under 80 gives 1, else 0); in particular 135/85 scores 2 and 150/70
scores 3, and no data-quality flag is raised. -/
theorem bp_subscore_follows_spec_thresholds
    (s p0 p1 : String) (rest : List String) (sy di : ℚ)
    (hslash : jsIncludesSlash s = true)
    (hsplit : jsSplitSlash s = p0 :: p1 :: rest)
    (hsy : parseInt (jsTrim p0) = .fin sy)
    (hdi : parseInt (jsTrim p1) = .fin di) :
    bpScore (some s) = (specBpSubScore sy di, false)
    ∧ bpScore (some "135/85") = (2, false)
    ∧ bpScore (some "150/70") = (3, false) := by
  refine ⟨?_, by decide, by decide⟩
  simp only [bpScore, hslash, hsplit, hsy, hdi, isInvalidNumber_fin, fin_ge_fin, fin_le_fin,
    fin_lt_fin, if_true, Bool.or_self, Bool.false_or, Bool.or_eq_true, Bool.and_eq_true,
    decide_eq_true_eq, and_assoc, specBpSubScore]
  split_ifs <;> simp_all

/-- Witness for C1 at the concrete reading 135/85. -/
theorem bp_subscore_follows_spec_thresholds_witness :
    bpScore (some "135/85") = (specBpSubScore 135 85, false) ∧ specBpSubScore 135 85 = 2 :=
  ⟨(bp_subscore_follows_spec_thresholds "135/85" "135" "85" [] 135 85
      (by decide) (by decide) (by decide) (by decide)).1, by decide⟩

/-- C2: the two source variants of the scoring function are not
equivalent: on a record whose blood pressure reads 150/85 (systolic at
least 140 together with diastolic in the moderate 80-89 band), the
scorer of src/assessment.ts gives blood-pressure sub-score 3 and total 3,
while the scorer of src/unnamed/part_001 gives sub-score 2 and total 2. -/
theorem variant_scorers_differ_on_150_85 :
    (calculateRiskScore ⟨"p1", some "150/85", none, none⟩).score = 3
    ∧ (variantCalculateRiskScore ⟨"p1", some "150/85", none, none⟩).score = 2
    ∧ (calculateRiskScore ⟨"p1", some "150/85", none, none⟩).score ≠
        (variantCalculateRiskScore ⟨"p1", some "150/85", none, none⟩).score := by
  refine ⟨by decide, by decide, by decide⟩

/-- C8: the temperature sub-score and fever flag follow the spec rules: a
temperature parsing to a finite value at most 99.5 gives sub-score 0 and
no fever; a value between 99.6 and 100.9 inclusive gives 1 and fever; a
value at least 101.0 gives 2 and fever; a missing temperature, or one
whose parse is NaN, raises the data-quality flag with sub-score 0 and no
fever; 100.0 scores 1 with fever and 98.0 scores 0 without; and the fever
flag of a full score result is exactly the temperature block's flag. -/
theorem temperature_subscore_rules (t : String) (q : ℚ) (patient : Patient) :
    (parseFloat t = .fin q → q ≤ Rat.divInt 995 10 → tempScore (some t) = (0, false, false))
    ∧ (parseFloat t = .fin q → Rat.divInt 996 10 ≤ q → q ≤ Rat.divInt 1009 10 →
        tempScore (some t) = (1, true, false))
    ∧ (parseFloat t = .fin q → (101 : ℚ) ≤ q → tempScore (some t) = (2, true, false))
    ∧ (parseFloat t = .nan → tempScore (some t) = (0, false, true))
    ∧ tempScore none = (0, false, true)
    ∧ tempScore (some "100.0") = (1, true, false)
    ∧ tempScore (some "98.0") = (0, false, false)
    ∧ (calculateRiskScore patient).isFever = (tempScore patient.temperature).2.1 := by
  have h56 : Rat.divInt 995 10 < Rat.divInt 996 10 := by decide
  have h9 : Rat.divInt 1009 10 < (101 : ℚ) := by decide
  have h10 : Rat.divInt 995 10 < (101 : ℚ) := by decide
  refine ⟨?_, ?_, ?_, ?_, by decide, by decide, by decide, rfl⟩
  · intro hp hq
    simp only [tempScore, Option.getD, hp, isInvalidNumber_fin, fin_le_fin, fin_ge_fin,
      Bool.and_eq_true, decide_eq_true_eq, Bool.false_eq_true, if_false]
    rw [if_pos hq]
  · intro hp h1 h2
    simp only [tempScore, Option.getD, hp, isInvalidNumber_fin, fin_le_fin, fin_ge_fin,
      Bool.and_eq_true, decide_eq_true_eq, Bool.false_eq_true, if_false]
    rw [if_neg (by linarith), if_pos ⟨h1, h2⟩]
  · intro hp h1
    simp only [tempScore, Option.getD, hp, isInvalidNumber_fin, fin_le_fin, fin_ge_fin,
      Bool.and_eq_true, decide_eq_true_eq, Bool.false_eq_true, if_false]
    rw [if_neg (by linarith), if_neg (by rintro ⟨h3, h4⟩; linarith), if_pos h1]
  · intro hp
    simp [tempScore, Option.getD, hp, isInvalidNumber_nan]

/-- Witness for C8 at the concrete readings 100.0 and 98.0. -/
theorem temperature_subscore_rules_witness :
    tempScore (some "100.0") = (1, true, false) ∧ tempScore (some "98.0") = (0, false, false) :=
  ⟨(temperature_subscore_rules "100.0" 100 ⟨"p", none, none, none⟩).2.1
      (by decide) (by decide) (by decide),
    (temperature_subscore_rules "98.0" 98 ⟨"p", none, none, none⟩).1 (by decide) (by decide)⟩

theorem bpScore_fst_le (bp : Option String) : (bpScore bp).1 ≤ 3 := by
  rcases bp with _ | s
  · simp [bpScore]
  · simp only [bpScore]
    split
    · split
      · split_ifs <;> simp
      · simp
    · simp

theorem tempScore_fst_le (t : Option String) : (tempScore t).1 ≤ 2 := by
  simp only [tempScore]
  split_ifs <;> simp

theorem ageScore_fst_le (a : Option String) : (ageScore a).1 ≤ 2 := by
  simp only [ageScore]
  split_ifs <;> simp

/-- C3: the scorer is total: for every record (each field possibly absent,
empty or unparseable) it returns a result whose total score is the sum of
the three sub-scores and is at most 7, whose data-quality flag is the
disjunction of the three block flags, and every malformed field (absent
blood pressure, blood pressure without a slash, a blood-pressure part,
temperature or age parsing to NaN, which covers absent, empty and
non-numeric strings) contributes sub-score 0 and raises the flag.  The
function is a Lean function, so totality and freedom from exceptions are
intrinsic to the embedding. -/
theorem calculateRiskScore_total_sum_bounded (patient : Patient) :
    (calculateRiskScore patient).score =
      (bpScore patient.blood_pressure).1 + (tempScore patient.temperature).1 +
        (ageScore patient.age).1
    ∧ (calculateRiskScore patient).score ≤ 7
    ∧ (calculateRiskScore patient).hasDataQualityIssue =
        ((bpScore patient.blood_pressure).2 || (tempScore patient.temperature).2.2 ||
          (ageScore patient.age).2)
    ∧ (patient.blood_pressure = none → bpScore patient.blood_pressure = (0, true))
    ∧ (∀ s, patient.blood_pressure = some s → jsIncludesSlash s = false →
        bpScore patient.blood_pressure = (0, true))
    ∧ (∀ s p0 p1 rest, patient.blood_pressure = some s →
        jsSplitSlash s = p0 :: p1 :: rest →
        (parseInt (jsTrim p0) = .nan ∨ parseInt (jsTrim p1) = .nan) →
        bpScore patient.blood_pressure = (0, true))
    ∧ (parseFloat (patient.temperature.getD "") = .nan →
        tempScore patient.temperature = (0, false, true))
    ∧ (parseInt (patient.age.getD "") = .nan → ageScore patient.age = (0, true)) := by
  refine ⟨rfl, ?_, rfl, ?_, ?_, ?_, ?_, ?_⟩
  · have h1 := bpScore_fst_le patient.blood_pressure
    have h2 := tempScore_fst_le patient.temperature
    have h3 := ageScore_fst_le patient.age
    simp only [calculateRiskScore]
    omega
  · intro h; rw [h]; rfl
  · intro s h hsl; rw [h]; simp [bpScore, hsl]
  · intro s p0 p1 rest h hsplit hnan
    rw [h]
    by_cases hsl : jsIncludesSlash s
    · rcases hnan with h1 | h1 <;>
        simp [bpScore, hsl, hsplit, h1, isInvalidNumber, JSNum.isNaN]
    · simp [bpScore, hsl]
  · intro h; simp [tempScore, h, isInvalidNumber, JSNum.isNaN]
  · intro h; simp [ageScore, h, isInvalidNumber, JSNum.isNaN]

/-- Witness for C3 on a record with absent blood pressure, empty
temperature and non-numeric age, and on the fully valid end-to-end record
of the spec, which scores 3 + 2 + 2 = 7. -/
theorem calculateRiskScore_total_sum_bounded_witness :
    (calculateRiskScore ⟨"p9", none, some "", some "abc"⟩).score ≤ 7
    ∧ bpScore (none : Option String) = (0, true)
    ∧ tempScore (some "") = (0, false, true)
    ∧ ageScore (some "abc") = (0, true)
    ∧ calculateRiskScore ⟨"p1", some "150/95", some "101.5", some "70"⟩ = ⟨7, true, false⟩ :=
  ⟨(calculateRiskScore_total_sum_bounded ⟨"p9", none, some "", some "abc"⟩).2.1,
    (calculateRiskScore_total_sum_bounded ⟨"p9", none, some "", some "abc"⟩).2.2.2.1 rfl,
    (calculateRiskScore_total_sum_bounded ⟨"p9", none, some "", some "abc"⟩).2.2.2.2.2.2.1
      (by decide),
    (calculateRiskScore_total_sum_bounded ⟨"p9", none, some "", some "abc"⟩).2.2.2.2.2.2.2
      (by decide),
    by decide⟩

theorem fetchLoop_transient_step (oracle : Nat → AttemptResult) (fuel retries : Nat)
    (delays : List Nat) (h : isTransientErr (oracle retries) = true) :
    fetchLoop oracle (fuel + 1) retries delays =
      fetchLoop oracle fuel (retries + 1) (1000 * 2 ^ retries :: delays) := by
  rcases ho : oracle retries with res | st
  · rw [ho] at h; simp [isTransientErr] at h
  · rcases st with _ | st2
    · rw [ho] at h; simp [isTransientErr] at h
    · have hmem : st2 ∈ transientStatuses := by
        have hc : transientStatuses.contains st2 = true := by
          rw [ho] at h; simpa [isTransientErr] using h
        simpa using hc
      simp [fetchLoop, ho, hmem]

theorem fetchLoop_transient_prefix (oracle : Nat → AttemptResult) (k : Nat) :
    ∀ fuel retries delays, (∀ i, i < k → isTransientErr (oracle (retries + i)) = true) →
      fetchLoop oracle (fuel + k) retries delays =
        fetchLoop oracle fuel (retries + k)
          (((List.range k).map fun i => 1000 * 2 ^ (retries + i)).reverse ++ delays) := by
  induction k with
  | zero => intro fuel retries delays _; simp
  | succ k ih =>
    intro fuel retries delays h
    have hfst : isTransientErr (oracle retries) = true := by simpa using h 0 (by omega)
    have hshape : fuel + (k + 1) = (fuel + k) + 1 := by omega
    rw [hshape, fetchLoop_transient_step oracle (fuel + k) retries delays hfst]
    have h2 : ∀ i, i < k → isTransientErr (oracle (retries + 1 + i)) = true := by
      intro i hi
      have h3 := h (i + 1) (by omega)
      have h4 : retries + 1 + i = retries + (i + 1) := by omega
      rw [h4]; exact h3
    rw [ih fuel (retries + 1) _ h2]
    have hfun : (fun i => 1000 * 2 ^ (retries + 1 + i)) = fun i => 1000 * 2 ^ (retries + (i + 1)) := by
      funext i
      have h4 : retries + 1 + i = retries + (i + 1) := by omega
      rw [h4]
    congr 1
    · omega
    · rw [hfun, List.range_succ_eq_map, List.map_cons, List.map_map, List.reverse_cons,
        List.append_assoc]
      rfl

/-- C4: on a transient failure status the fetcher waits baseDelay times
2 to the attempt number (attempt starting at 0) and retries, up to the cap
of 10 attempts; exhausting the cap yields the empty result (no records, no
pagination) with the ten backoff delays slept, rather than an error; and a
fetch that fails transiently 5 times then succeeds on the 6th attempt
returns the successful page's records after the five backoff delays, not
an empty result. -/
theorem fetchPatientsPage_transient_retry_backoff (oracle : Nat → AttemptResult) (d : ApiData) :
    ((∀ i, i < 10 → isTransientErr (oracle i) = true) →
      fetchPatientsPage oracle = (⟨[], none⟩, (List.range 10).map fun i => 1000 * 2 ^ i))
    ∧ ((∀ i, i < 5 → isTransientErr (oracle i) = true) → oracle 5 = .ok (some d) →
      (fetchPatientsPage oracle).1 = ⟨d.data.getD [], d.pagination⟩
      ∧ (fetchPatientsPage oracle).2 = (List.range 5).map fun i => 1000 * 2 ^ i) := by
  constructor
  · intro h
    have hpre := fetchLoop_transient_prefix oracle 10 0 0 []
      (by intro i hi; simpa using h i hi)
    rw [fetchPatientsPage, show (10 : Nat) = 0 + 10 from rfl, hpre]
    simp [fetchLoop]
  · intro h h5
    have hpre := fetchLoop_transient_prefix oracle 5 5 0 []
      (by intro i hi; simpa using h i hi)
    rw [fetchPatientsPage, show (10 : Nat) = 5 + 5 from rfl, hpre]
    have h5b : oracle (0 + 5) = .ok (some d) := by simpa using h5
    constructor <;> simp [fetchLoop, h5b]

/-- Witness for C4: an always-429 oracle exhausts the cap with the ten
backoff delays; an oracle that fails five times then succeeds returns the
successful page's records. -/
theorem fetchPatientsPage_transient_retry_backoff_witness :
    fetchPatientsPage (fun _ => .err (some 500)) =
      (⟨[], none⟩, (List.range 10).map fun i => 1000 * 2 ^ i)
    ∧ (fetchPatientsPage (fun i =>
        if i < 5 then .err (some 429)
        else .ok (some ⟨some [⟨"p7", none, none, none⟩], none⟩))).1 =
      ⟨[⟨"p7", none, none, none⟩], none⟩ :=
  ⟨(fetchPatientsPage_transient_retry_backoff (fun _ => .err (some 500)) ⟨none, none⟩).1
      (by decide),
    by
      have h := ((fetchPatientsPage_transient_retry_backoff
          (fun i =>
            if i < 5 then .err (some 429)
            else .ok (some ⟨some [⟨"p7", none, none, none⟩], none⟩))
          ⟨some [⟨"p7", none, none, none⟩], none⟩).2 (by decide) (by decide)).1
      simpa using h⟩

/-- C9: on a failure status outside the transient set 429, 500, 502, 503,
including a network error carrying no status at all, the fetcher stops at
that attempt and returns the empty result (no records, null pagination)
with no further retries: only the backoff delays of the earlier transient
attempts were slept. -/
theorem fetchPatientsPage_terminal_immediate_empty (oracle : Nat → AttemptResult)
    (k : Nat) (st : Option Nat) (hk : k < 10)
    (hprev : ∀ i, i < k → isTransientErr (oracle i) = true)
    (hstat : oracle k = .err st) (hterm : isTransientErr (.err st) = false) :
    fetchPatientsPage oracle = (⟨[], none⟩, (List.range k).map fun i => 1000 * 2 ^ i) := by
  obtain ⟨m, hm⟩ : ∃ m, 10 = (m + 1) + k := ⟨9 - k, by omega⟩
  have hpre := fetchLoop_transient_prefix oracle k (m + 1) 0 []
    (by intro i hi; simpa using hprev i hi)
  rw [fetchPatientsPage, hm, hpre]
  rcases st with _ | s
  · simp [fetchLoop, hstat]
  · have hnm : s ∉ transientStatuses := by
      have hc : transientStatuses.contains s = false := by
        simpa [isTransientErr] using hterm
      simpa using hc
    simp [fetchLoop, hstat, hnm]

/-- Witness for C9: a 404 on the very first attempt returns the empty
result with no delays slept. -/
theorem fetchPatientsPage_terminal_immediate_empty_witness :
    fetchPatientsPage (fun _ => .err (some 404)) = (⟨[], none⟩, []) := by
  have h := fetchPatientsPage_terminal_immediate_empty (fun _ => .err (some 404)) 0 (some 404)
    (by omega) (by decide) rfl (by decide)
  simpa using h

theorem routePatients_spec (ps : List Patient) :
    ∀ hi fev dq, routePatients ps hi fev dq =
      (hi ++ (ps.filter fun q => 4 ≤ (calculateRiskScore q).score).map Patient.patient_id,
        fev ++ (ps.filter fun q => (calculateRiskScore q).isFever).map Patient.patient_id,
        dq ++ (ps.filter fun q => (calculateRiskScore q).hasDataQualityIssue).map
          Patient.patient_id) := by
  induction ps with
  | nil => intro hi fev dq; simp [routePatients]
  | cons p rest ih =>
    intro hi fev dq
    rw [routePatients, ih]
    by_cases h1 : 4 ≤ (calculateRiskScore p).score <;>
      cases h2 : (calculateRiskScore p).isFever <;>
        cases h3 : (calculateRiskScore p).hasDataQualityIssue <;>
          simp [List.filter_cons, h1, h2, h3]

theorem foldInPage_eq (ps : List Patient) (s : OrchState) :
    foldInPage ps s =
      { s with
        highRiskPatientIds := s.highRiskPatientIds ++
          (ps.filter fun q => 4 ≤ (calculateRiskScore q).score).map Patient.patient_id
        feverPatientIds := s.feverPatientIds ++
          (ps.filter fun q => (calculateRiskScore q).isFever).map Patient.patient_id
        dataQualityIssueIds := s.dataQualityIssueIds ++
          (ps.filter fun q => (calculateRiskScore q).hasDataQualityIssue).map Patient.patient_id
        allPatients := s.allPatients ++ ps } := by
  simp [foldInPage, routePatients_spec]

theorem retryPass_calls (fetchR : Nat → PageResult) (l : List Nat) :
    ∀ s, (retryPass fetchR l s).2.1 = l := by
  induction l with
  | nil => intro s; rfl
  | cons p rest ih =>
    intro s
    simp only [retryPass]
    split <;> simp [ih]

theorem retryPass_hasNext (fetchR : Nat → PageResult) (l : List Nat) :
    ∀ s, (retryPass fetchR l s).1.hasNext = s.hasNext := by
  induction l with
  | nil => intro s; rfl
  | cons p rest ih =>
    intro s
    simp only [retryPass]
    split
    · exact ih s
    · rw [ih]; rfl

theorem stepMain_empty_fields (fetchM : Nat → PageResult) (s : OrchState)
    (h : (fetchM s.page).patients.isEmpty = true) :
    (stepMain fetchM s).failedPages = s.failedPages ++ [s.page]
    ∧ (stepMain fetchM s).page = s.page + 1 := by
  simp only [stepMain, h, if_true]
  exact ⟨trivial, trivial⟩

theorem stepMain_records_fields (fetchM : Nat → PageResult) (s : OrchState)
    (h : (fetchM s.page).patients.isEmpty = false) :
    (stepMain fetchM s).failedPages = s.failedPages
    ∧ (stepMain fetchM s).page = s.page + 1 := by
  simp only [stepMain, h, Bool.false_eq_true, if_false]
  exact ⟨rfl, trivial⟩

theorem stepMain_pagesOrdered (fetchM : Nat → PageResult) (s : OrchState)
    (h : pagesOrdered s) : pagesOrdered (stepMain fetchM s) := by
  rcases h with ⟨h1, h2⟩
  rcases he : (fetchM s.page).patients.isEmpty with _ | _
  · obtain ⟨hf, hp⟩ := stepMain_records_fields fetchM s he
    refine ⟨?_, ?_⟩
    · rw [hf]; exact h1
    · rw [hf, hp]
      intro x hx
      have := h2 x hx; omega
  · obtain ⟨hf, hp⟩ := stepMain_empty_fields fetchM s he
    refine ⟨?_, ?_⟩
    · rw [hf]
      refine List.pairwise_append.mpr ⟨h1, List.pairwise_singleton _ _, ?_⟩
      intro a ha b hb
      simp only [List.mem_singleton] at hb
      subst hb
      exact h2 a ha
    · rw [hf, hp]
      intro x hx
      simp only [List.mem_append, List.mem_singleton] at hx
      rcases hx with hx | hx
      · have := h2 x hx; omega
      · omega

theorem mainLoop_pagesOrdered (fetchM : Nat → PageResult) :
    ∀ fuel s t, pagesOrdered s → mainLoop fetchM fuel s = some t → pagesOrdered t := by
  intro fuel
  induction fuel with
  | zero =>
    intro s t hs h
    simp only [mainLoop] at h
    split at h
    · simp at h
    · cases h; exact hs
  | succ fuel ih =>
    intro s t hs h
    simp only [mainLoop] at h
    split at h
    · exact ih _ _ (stepMain_pagesOrdered fetchM s hs) h
    · cases h; exact hs

theorem setDedupAux_not_mem_seen (l : List String) :
    ∀ seen x, x ∈ setDedupAux seen l → x ∉ seen := by
  induction l with
  | nil => intro seen x hx; simp [setDedupAux] at hx
  | cons a rest ih =>
    intro seen x hx
    simp only [setDedupAux] at hx
    split at hx
    · exact ih seen x hx
    · rcases List.mem_cons.mp hx with rfl | hx2
      · assumption
      · intro hxs
        exact ih (a :: seen) x hx2 (List.mem_cons_of_mem a hxs)

theorem setDedupAux_nodup (l : List String) : ∀ seen, (setDedupAux seen l).Nodup := by
  induction l with
  | nil => intro seen; simp [setDedupAux]
  | cons a rest ih =>
    intro seen
    simp only [setDedupAux]
    split
    · exact ih seen
    · refine List.nodup_cons.mpr ⟨?_, ih (a :: seen)⟩
      intro hmem
      exact setDedupAux_not_mem_seen rest (a :: seen) a hmem (List.mem_cons_self a seen)

/-- C5: an empty page does not terminate pagination: the main loop records
the page number as pending retry and advances the page counter, leaving
the loop flag, the accumulated records and the category lists unchanged;
after a terminating main loop the recorded pages are distinct and the
retry pass fetches exactly those pages once each in order; a recorded page
that is still empty on retry leaves the state untouched and is reported
dropped, one that now has records is folded in exactly as in the main
loop; and the retry pass never consults or changes the loop flag. -/
theorem empty_page_pending_retry_policy (fetchM fetchR : Nat → PageResult) (s : OrchState)
    (p : Nat) (rest : List Nat) (fuel : Nat) (sFin : OrchState) :
    (s.hasNext = true → (fetchM s.page).patients = [] →
      (stepMain fetchM s).failedPages = s.failedPages ++ [s.page]
      ∧ (stepMain fetchM s).page = s.page + 1
      ∧ (stepMain fetchM s).hasNext = s.hasNext
      ∧ (stepMain fetchM s).allPatients = s.allPatients
      ∧ (stepMain fetchM s).highRiskPatientIds = s.highRiskPatientIds
      ∧ (stepMain fetchM s).feverPatientIds = s.feverPatientIds
      ∧ (stepMain fetchM s).dataQualityIssueIds = s.dataQualityIssueIds)
    ∧ (mainLoop fetchM fuel initState = some sFin →
        sFin.failedPages.Nodup
        ∧ (retryPass fetchR sFin.failedPages sFin).2.1 = sFin.failedPages)
    ∧ ((retryPass fetchR rest s).2.1 = rest)
    ∧ ((fetchR p).patients = [] →
        (retryPass fetchR (p :: rest) s).1 = (retryPass fetchR rest s).1
        ∧ (retryPass fetchR (p :: rest) s).2.2 = p :: (retryPass fetchR rest s).2.2)
    ∧ ((fetchR p).patients ≠ [] →
        (retryPass fetchR (p :: rest) s).1 =
          (retryPass fetchR rest (foldInPage (fetchR p).patients s)).1
        ∧ (retryPass fetchR (p :: rest) s).2.2 =
          (retryPass fetchR rest (foldInPage (fetchR p).patients s)).2.2)
    ∧ ((retryPass fetchR rest s).1.hasNext = s.hasNext) := by
  refine ⟨?_, ?_, retryPass_calls fetchR rest s, ?_, ?_, retryPass_hasNext fetchR rest s⟩
  · intro _ h
    have hne : (fetchM s.page).patients.isEmpty = true := by simp [h]
    simp only [stepMain, hne, if_true]
    exact ⟨trivial, trivial, trivial, trivial, trivial, trivial, trivial⟩
  · intro h
    have hord := mainLoop_pagesOrdered fetchM fuel initState sFin
      (by simp [pagesOrdered, initState]) h
    exact ⟨hord.1.imp fun hab => Nat.ne_of_lt hab, retryPass_calls fetchR sFin.failedPages sFin⟩
  · intro h
    have hne : (fetchR p).patients.isEmpty = true := by simp [h]
    constructor <;> simp [retryPass, hne]
  · intro h
    have hne : (fetchR p).patients.isEmpty = false := by simpa using h
    constructor <;> simp [retryPass, hne]

/-- Witness for C5 on a concrete service whose first page is momentarily
empty: the page is queued, pagination continues, the terminating run
leaves distinct pending pages which the retry pass fetches once each, and
both the still-empty and the recovered retry behaviours are exercised. -/
theorem empty_page_pending_retry_policy_witness :
    ((stepMain demoFetch initState).failedPages = initState.failedPages ++ [initState.page]
      ∧ (stepMain demoFetch initState).hasNext = initState.hasNext)
    ∧ (demoFinal.failedPages.Nodup
      ∧ (retryPass demoFetch demoFinal.failedPages demoFinal).2.1 = demoFinal.failedPages)
    ∧ (retryPass demoFetch [3] initState).1 = (retryPass demoFetch [] initState).1
    ∧ (retryPass demoFetch [2] initState).1 =
        (retryPass demoFetch [] (foldInPage (demoFetch 2).patients initState)).1 := by
  have hstep := (empty_page_pending_retry_policy demoFetch demoFetch initState 3 [] 3
    demoFinal).1 rfl (by decide)
  have hloop := (empty_page_pending_retry_policy demoFetch demoFetch initState 3 [] 3
    demoFinal).2.1 (by decide)
  have hempty := (empty_page_pending_retry_policy demoFetch demoFetch initState 3 [] 3
    demoFinal).2.2.2.1 (by decide)
  have hfull := (empty_page_pending_retry_policy demoFetch demoFetch initState 2 [] 3
    demoFinal).2.2.2.2.1 (by decide)
  exact ⟨⟨hstep.1, hstep.2.2.1⟩, hloop, hempty.1, hfull.1⟩

/-- C6: after a page that yields records the loop continues only when the
pagination object is present and carries a boolean hasNext equal to true:
a missing pagination object, a missing hasNext field or a non-boolean
hasNext all set the loop flag to false, and with the flag false the main
loop stops at once, treating pagination as finished after that page. -/
theorem hasNext_advisory_policy (fetchM : Nat → PageResult) (s : OrchState) (pg : Pagination)
    (b : Bool) (fuel : Nat) :
    (s.hasNext = true → (fetchM s.page).patients ≠ [] →
      (stepMain fetchM s).hasNext = paginationHasNext (fetchM s.page).pagination)
    ∧ ((fetchM s.page).pagination = none → paginationHasNext (fetchM s.page).pagination = false)
    ∧ ((fetchM s.page).pagination = some pg → pg.hasNext = .missing →
        paginationHasNext (fetchM s.page).pagination = false)
    ∧ ((fetchM s.page).pagination = some pg → pg.hasNext = .nonBool →
        paginationHasNext (fetchM s.page).pagination = false)
    ∧ ((fetchM s.page).pagination = some pg → pg.hasNext = .bool b →
        paginationHasNext (fetchM s.page).pagination = b)
    ∧ (s.hasNext = false → mainLoop fetchM fuel s = some s) := by
  refine ⟨?_, ?_, ?_, ?_, ?_, ?_⟩
  · intro _ h
    have hne : (fetchM s.page).patients.isEmpty = false := by simpa using h
    simp [stepMain, hne]
  · intro h; rw [h]; rfl
  · intro h hb; rw [h]; simp [paginationHasNext, hb]
  · intro h hb; rw [h]; simp [paginationHasNext, hb]
  · intro h hb; rw [h]; simp [paginationHasNext, hb]
  · intro h; cases fuel <;> simp [mainLoop, h]

/-- Witness for C6: on the duplicate-id service the first page carries
hasNext true so the loop continues, a non-boolean hasNext maps to false,
and a state with the flag down stops the loop at once. -/
theorem hasNext_advisory_policy_witness :
    (stepMain dupFetch initState).hasNext = paginationHasNext (dupFetch initState.page).pagination
    ∧ paginationHasNext (some ⟨none, .nonBool⟩) = false
    ∧ mainLoop dupFetch 0 demoFinal = some demoFinal := by
  refine ⟨(hasNext_advisory_policy dupFetch initState ⟨none, .bool true⟩ true 0).1 rfl
      (by decide), ?_, ?_⟩
  · exact (hasNext_advisory_policy (fun _ => ⟨[], some ⟨none, .nonBool⟩⟩) initState
      ⟨none, .nonBool⟩ true 0).2.2.2.1 rfl rfl
  · exact (hasNext_advisory_policy dupFetch demoFinal ⟨none, .bool true⟩ true 0).2.2.2.2.2 rfl

/-- C7: whenever a run of fetchAllPatients terminates and submits, each of
the three submitted category sets contains every record id at most once,
whatever the pages returned and however often an id was routed. -/
theorem submitted_category_sets_nodup (fetchM fetchR : Nat → PageResult) (fuel : Nat)
    (sub : Submission) (h : fetchAllPatients fetchM fetchR fuel = some sub) :
    sub.high_risk_patients.Nodup ∧ sub.fever_patients.Nodup
      ∧ sub.data_quality_issues.Nodup := by
  rcases hm : mainLoop fetchM fuel initState with _ | s
  · rw [fetchAllPatients, hm] at h
    cases h
  · rw [fetchAllPatients, hm] at h
    injection h with h2
    subst h2
    exact ⟨setDedupAux_nodup _ [], setDedupAux_nodup _ [], setDedupAux_nodup _ []⟩

/-- Witness for C7: a run in which the id p1 appears on both pages (and is
routed into the data-quality set twice) still submits it only once. -/
theorem submitted_category_sets_nodup_witness :
    fetchAllPatients dupFetch dupFetch 3 = some ⟨[], [], ["p1"]⟩
    ∧ (["p1"] : List String).Nodup :=
  ⟨by decide,
    (submitted_category_sets_nodup dupFetch dupFetch 3 ⟨[], [], ["p1"]⟩ (by decide)).2.2⟩

/-- C10: an id is routed into the high-risk list exactly when its score is
at least 4: folding a page appends precisely the ids of its records whose
score reaches 4, the main loop applies that fold on every non-empty page,
and the retry pass applies the very same fold to a recovered page. -/
theorem high_risk_threshold_ge_4 (fetchM fetchR : Nat → PageResult) (s : OrchState)
    (ps : List Patient) (p : Nat) (rest : List Nat) :
    ((foldInPage ps s).highRiskPatientIds =
      s.highRiskPatientIds ++
        (ps.filter fun q => 4 ≤ (calculateRiskScore q).score).map Patient.patient_id)
    ∧ (s.hasNext = true → (fetchM s.page).patients ≠ [] →
        (stepMain fetchM s).highRiskPatientIds =
          s.highRiskPatientIds ++
            ((fetchM s.page).patients.filter fun q => 4 ≤ (calculateRiskScore q).score).map
              Patient.patient_id)
    ∧ ((fetchR p).patients ≠ [] →
        (retryPass fetchR (p :: rest) s).1 =
          (retryPass fetchR rest (foldInPage (fetchR p).patients s)).1) := by
  refine ⟨?_, ?_, ?_⟩
  · rw [foldInPage_eq]
  · intro _ h
    have hne : (fetchM s.page).patients.isEmpty = false := by simpa using h
    simp [stepMain, hne, foldInPage_eq]
  · intro h
    have hne : (fetchR p).patients.isEmpty = false := by simpa using h
    simp [retryPass, hne]

/-- Witness for C10: the spec's end-to-end record scores 7 and lands in
the high-risk list; a duplicate-id retry page is folded through the same
routing. -/
theorem high_risk_threshold_ge_4_witness :
    (foldInPage [⟨"p1", some "150/95", some "101.5", some "70"⟩] initState).highRiskPatientIds
      = ["p1"]
    ∧ (retryPass dupFetch [2] initState).1 =
        (retryPass dupFetch [] (foldInPage (dupFetch 2).patients initState)).1 := by
  constructor
  · rw [(high_risk_threshold_ge_4 dupFetch dupFetch initState
      [⟨"p1", some "150/95", some "101.5", some "70"⟩] 2 []).1]
    decide
  · exact (high_risk_threshold_ge_4 dupFetch dupFetch initState [] 2 []).2.2 (by decide)

end Assessment
